import Mathlib

set_option maxRecDepth 100000

/-!
Verification of the session-scoped retrieval-augmented QA pipeline
(`web-craler.ipynb`): crawling, chunking, per-session vector indexing,
prompt construction, and the session/concurrency layer of `ingest_fn`
and `chat_fn`.  Pure shallow embedding: external collaborators
(`RecursiveUrlLoader`, the embedding/generation service, the executor)
appear as explicit oracle parameters.
-/

namespace WebQA

/-- Text is modelled as a list of characters ("units" in the spec's words). -/
abbrev Text := List Char

/-- A crawled page: plain text plus the `source` metadata entry
(`d.metadata["source"]`), which may still be absent before
`crawl_website` normalises it. -/
structure Document where
  text : Text
  source : Option String
deriving DecidableEq

/-- A chunk produced by the splitter: a span of one document's text with a
back-reference to the document's `source` metadata. -/
structure Chunk where
  text : Text
  source : Option String
deriving DecidableEq

/-- Configuration of `RecursiveCharacterTextSplitter(chunk_size=512, chunk_overlap=64)`. -/
structure TextSplitterCfg where
  chunk_size : Nat
  chunk_overlap : Nat
deriving DecidableEq

/-- `SPLITTER = RecursiveCharacterTextSplitter(chunk_size=512, chunk_overlap=64)`. -/
def SPLITTER : TextSplitterCfg := { chunk_size := 512, chunk_overlap := 64 }

/-- Modelled from the spec: the splitting algorithm itself lives in the external
`RecursiveCharacterTextSplitter` library class, not in the repository; the spec
documents it as deterministic sliding windows of length `chunkSize` advancing by
`chunkSize − overlap`, the final window of a document possibly shorter. -/
def splitText (chunkSize overlap : Nat) (text : Text) : List Text :=
  if h : text.length ≤ chunkSize ∨ chunkSize ≤ overlap then [text]
  else
    text.take chunkSize :: splitText chunkSize overlap (text.drop (chunkSize - overlap))
termination_by text.length
decreasing_by
  rw [not_or] at h
  simp only [List.length_drop]
  omega

/-- `SPLITTER.split_documents(docs)`: split every document with the configured
window parameters, each chunk keeping its document's `source`. -/
def split_documents (docs : List Document) : List Chunk :=
  docs.flatMap fun d =>
    (splitText SPLITTER.chunk_size SPLITTER.chunk_overlap d.text).map fun t =>
      { text := t, source := d.source }

/-- The concatenation of the chunks' non-overlapping portions: the first chunk
whole, every later chunk minus its leading `overlap` units. -/
def reconstruct (overlap : Nat) : List Text → Text
  | [] => []
  | c :: cs => c ++ (cs.map fun x => x.drop overlap).flatten

lemma splitText_cons (chunkSize overlap : Nat) (hov : overlap < chunkSize)
    (text : Text) :
    ∃ tl, splitText chunkSize overlap text = text.take chunkSize :: tl := by
  rw [splitText.eq_def]
  split
  · rename_i h
    rcases h with h | h
    · exact ⟨[], by rw [List.take_of_length_le h]⟩
    · omega
  · exact ⟨_, rfl⟩

lemma splitText_ne_nil (chunkSize overlap : Nat) (text : Text) :
    splitText chunkSize overlap text ≠ [] := by
  rw [splitText.eq_def]
  split <;> simp

lemma splitText_getElem? (chunkSize overlap : Nat) (hov : overlap < chunkSize) :
    ∀ (n : Nat) (text : Text), text.length ≤ n →
      ∀ i, i < (splitText chunkSize overlap text).length →
        (splitText chunkSize overlap text)[i]? =
          some ((text.drop (i * (chunkSize - overlap))).take chunkSize) := by
  intro n
  induction n with
  | zero =>
    intro text hlen i hi
    have htext : text = [] := List.length_eq_zero.mp (Nat.le_zero.mp hlen)
    subst htext
    rw [splitText.eq_def] at hi ⊢
    have hcond : ([] : Text).length ≤ chunkSize ∨ chunkSize ≤ overlap := by
      left; simp
    rw [dif_pos hcond] at hi ⊢
    have hi0 : i = 0 := by simpa using hi
    subst hi0
    simp
  | succ n ih =>
    intro text hlen i hi
    rw [splitText.eq_def] at hi ⊢
    by_cases hc : text.length ≤ chunkSize ∨ chunkSize ≤ overlap
    · rw [dif_pos hc] at hi ⊢
      have hi0 : i = 0 := by simpa using hi
      subst hi0
      rcases hc with hc | hc
      · simp [List.take_of_length_le hc]
      · omega
    · rw [dif_neg hc] at hi ⊢
      rw [not_or] at hc
      cases i with
      | zero => simp
      | succ j =>
        simp only [List.getElem?_cons_succ]
        have hlen' : (text.drop (chunkSize - overlap)).length ≤ n := by
          simp only [List.length_drop]
          omega
        have hj : j < (splitText chunkSize overlap
            (text.drop (chunkSize - overlap))).length := by
          simpa using hi
        rw [ih (text.drop (chunkSize - overlap)) hlen' j hj]
        rw [List.drop_drop]
        congr 3
        ring

lemma splitText_getElem (chunkSize overlap : Nat) (hov : overlap < chunkSize)
    (text : Text) (i : Nat) (hi : i < (splitText chunkSize overlap text).length) :
    (splitText chunkSize overlap text)[i] =
      (text.drop (i * (chunkSize - overlap))).take chunkSize := by
  have h := splitText_getElem? chunkSize overlap hov text.length text (Nat.le_refl _) i hi
  rw [List.getElem?_eq_getElem hi] at h
  exact Option.some_injective _ h

lemma splitText_dropLast_length (chunkSize overlap : Nat) (hov : overlap < chunkSize) :
    ∀ (n : Nat) (text : Text), text.length ≤ n →
      ∀ c ∈ (splitText chunkSize overlap text).dropLast, c.length = chunkSize := by
  intro n
  induction n with
  | zero =>
    intro text hlen c hc
    have htext : text = [] := List.length_eq_zero.mp (Nat.le_zero.mp hlen)
    subst htext
    rw [splitText.eq_def] at hc
    have hcond : ([] : Text).length ≤ chunkSize ∨ chunkSize ≤ overlap := by
      left; simp
    rw [dif_pos hcond] at hc
    simp at hc
  | succ n ih =>
    intro text hlen c hc
    rw [splitText.eq_def] at hc
    by_cases hcond : text.length ≤ chunkSize ∨ chunkSize ≤ overlap
    · rw [dif_pos hcond] at hc
      simp at hc
    · rw [dif_neg hcond] at hc
      rw [not_or] at hcond
      have hne := splitText_ne_nil chunkSize overlap (text.drop (chunkSize - overlap))
      rw [List.dropLast_cons_of_ne_nil hne] at hc
      rcases List.mem_cons.mp hc with hc | hc
      · subst hc
        simp only [List.length_take, List.length_drop]
        omega
      · have hlen' : (text.drop (chunkSize - overlap)).length ≤ n := by
          simp only [List.length_drop]
          omega
        exact ih (text.drop (chunkSize - overlap)) hlen' c hc

lemma splitText_mem_length_le (chunkSize overlap : Nat) (hov : overlap < chunkSize) :
    ∀ (n : Nat) (text : Text), text.length ≤ n → text.length ≤ chunkSize ∨ 0 < n →
      ∀ c ∈ splitText chunkSize overlap text, c.length ≤ chunkSize := by
  intro n
  induction n with
  | zero =>
    intro text hlen hpos c hc
    rcases hpos with hpos | hpos
    · rw [splitText.eq_def, dif_pos (Or.inl hpos)] at hc
      simp at hc
      subst hc
      exact hpos
    · omega
  | succ n ih =>
    intro text hlen _ c hc
    rw [splitText.eq_def] at hc
    by_cases hcond : text.length ≤ chunkSize ∨ chunkSize ≤ overlap
    · rcases hcond with hcond | hcond
      · rw [dif_pos (Or.inl hcond)] at hc
        simp at hc
        subst hc
        exact hcond
      · omega
    · rw [dif_neg hcond] at hc
      rw [not_or] at hcond
      rcases List.mem_cons.mp hc with hc | hc
      · subst hc
        simp
      · have hlen' : (text.drop (chunkSize - overlap)).length ≤ n := by
          simp only [List.length_drop]
          omega
        by_cases hshort : (text.drop (chunkSize - overlap)).length ≤ chunkSize
        · exact ih _ hlen' (Or.inl hshort) c hc
        · have : 0 < n := by omega
          exact ih _ hlen' (Or.inr this) c hc

lemma reconstruct_splitText (chunkSize overlap : Nat) (hov : overlap < chunkSize) :
    ∀ (n : Nat) (text : Text), text.length ≤ n →
      reconstruct overlap (splitText chunkSize overlap text) = text := by
  intro n
  induction n with
  | zero =>
    intro text hlen
    have htext : text = [] := List.length_eq_zero.mp (Nat.le_zero.mp hlen)
    subst htext
    rw [splitText.eq_def]
    have hcond : ([] : Text).length ≤ chunkSize ∨ chunkSize ≤ overlap := by
      left; simp
    rw [dif_pos hcond]
    simp [reconstruct]
  | succ n ih =>
    intro text hlen
    rw [splitText.eq_def]
    by_cases hcond : text.length ≤ chunkSize ∨ chunkSize ≤ overlap
    · rw [dif_pos hcond]
      simp [reconstruct]
    · rw [dif_neg hcond]
      rw [not_or] at hcond
      set rest := text.drop (chunkSize - overlap) with hrest
      have hlen' : rest.length ≤ n := by
        rw [hrest]
        simp only [List.length_drop]
        omega
      have hrec := ih rest hlen'
      obtain ⟨tl, htl⟩ := splitText_cons chunkSize overlap hov rest
      have hrestlen : overlap < rest.length := by
        rw [hrest]
        simp only [List.length_drop]
        omega
      have hheadlen : overlap ≤ (rest.take chunkSize).length := by
        simp only [List.length_take]
        omega
      rw [htl] at hrec ⊢
      simp only [reconstruct, List.map_cons, List.flatten_cons] at hrec ⊢
      have hdropappend :
          (rest.take chunkSize).drop overlap ++ (tl.map fun x => x.drop overlap).flatten
            = ((rest.take chunkSize) ++ (tl.map fun x => x.drop overlap).flatten).drop overlap := by
        rw [List.drop_append_of_le_length hheadlen]
      rw [hdropappend, hrec]
      rw [hrest]
      rw [List.drop_drop]
      have harith : chunkSize - overlap + overlap = chunkSize := by omega
      rw [harith]
      conv_rhs => rw [← List.take_append_drop chunkSize text]

lemma splitText_chain (chunkSize overlap : Nat) (hov : overlap < chunkSize) :
    ∀ (n : Nat) (text : Text), text.length ≤ n →
      (splitText chunkSize overlap text).Chain' fun a b =>
        a.drop (chunkSize - overlap) = b.take overlap ∧ (b.take overlap).length = overlap := by
  intro n
  induction n with
  | zero =>
    intro text hlen
    have htext : text = [] := List.length_eq_zero.mp (Nat.le_zero.mp hlen)
    subst htext
    rw [splitText.eq_def]
    have hcond : ([] : Text).length ≤ chunkSize ∨ chunkSize ≤ overlap := by
      left; simp
    rw [dif_pos hcond]
    simp
  | succ n ih =>
    intro text hlen
    rw [splitText.eq_def]
    by_cases hcond : text.length ≤ chunkSize ∨ chunkSize ≤ overlap
    · rw [dif_pos hcond]
      simp
    · rw [dif_neg hcond]
      rw [not_or] at hcond
      set rest := text.drop (chunkSize - overlap) with hrest
      have hlen' : rest.length ≤ n := by
        rw [hrest]
        simp only [List.length_drop]
        omega
      have hrestlen : overlap < rest.length := by
        rw [hrest]
        simp only [List.length_drop]
        omega
      obtain ⟨tl, htl⟩ := splitText_cons chunkSize overlap hov rest
      have hchain := ih rest hlen'
      rw [htl] at hchain ⊢
      refine List.Chain'.cons ?_ hchain
      constructor
      · rw [List.drop_take, List.take_take]
        have h1 : chunkSize - (chunkSize - overlap) = overlap := by omega
        have h2 : min overlap chunkSize = overlap := by omega
        rw [h1, h2, hrest]
      · simp only [List.length_take, List.length_take]
        omega

/-- Python's `str.strip()`: remove leading and trailing whitespace. -/
def py_strip (s : String) : String :=
  ⟨((s.data.dropWhile Char.isWhitespace).reverse.dropWhile Char.isWhitespace).reverse⟩

/-- Python's `s.startswith(p)`. -/
def py_startswith (s p : String) : Bool := p.data.isPrefixOf s.data

/-- A Python exception, as observed by an `except Exception as e` handler:
the class name (`type(e).__name__`) and the message (`str(e)`). -/
structure PyExn where
  ty : String
  msg : String
deriving DecidableEq

/-- The keyword arguments `ingest_fn`/`crawl_website` hand to the external
`RecursiveUrlLoader` collaborator: `url`, `max_depth` and the per-page-fetch
`timeout`. -/
structure LoaderCfg where
  url : String
  max_depth : Nat
  timeout : Nat
deriving DecidableEq

/-- The loader configuration built inside `crawl_website`: the root URL, the
requested depth, and `timeout=10`. -/
def crawl_loader_cfg (root_url : String) (depth : Nat) : LoaderCfg :=
  { url := root_url, max_depth := depth, timeout := 10 }

/-- `crawl_website(root_url, depth)`.  The external loader is an oracle that
either yields the crawled documents or raises; a raise is re-raised as
`RuntimeError("RecursiveUrlLoader failed: ...")`.  On success every document's
`source` metadata is defaulted to the root URL when absent. -/
def crawl_website (loader : LoaderCfg → Except PyExn (List Document))
    (root_url : String) (depth : Nat := 2) : Except PyExn (List Document) :=
  match loader (crawl_loader_cfg root_url depth) with
  | .error e => .error { ty := "RuntimeError", msg := "RecursiveUrlLoader failed: " ++ e.msg }
  | .ok docs => .ok (docs.map fun d => { d with source := some (d.source.getD root_url) })

/-- A chunk as stored by `Chroma.from_documents(..., collection_name=f"session-{sid}")`:
the chunk plus the name of the collection that owns it. -/
structure StoredChunk where
  collection : String
  chunk : Chunk
deriving DecidableEq

/-- A per-session Chroma vector store: a named collection of stored chunks. -/
structure VectorIndex where
  collection_name : String
  entries : List StoredChunk
deriving DecidableEq

/-- `build_vectorstore(docs, sid)`: split the documents with `SPLITTER` and
store the chunks in the collection named `session-` + sid. -/
def build_vectorstore (docs : List Document) (sid : String) : VectorIndex :=
  { collection_name := "session-" ++ sid
    entries := (split_documents docs).map fun c =>
      { collection := "session-" ++ sid, chunk := c } }

/-- The `RetrievalQA` chain built by `make_qa_chain`: the vector store, the
retriever's `k` and search type. -/
structure QAChain where
  vstore : VectorIndex
  k : Nat
  search_type : String
deriving DecidableEq

/-- `make_qa_chain(vstore)`: MMR retriever with `k = 4` over the store. -/
def make_qa_chain (vstore : VectorIndex) : QAChain :=
  { vstore := vstore, k := 4, search_type := "mmr" }

/-- Modelled from the spec: the similarity-with-diversity retrieval is
performed by the external Chroma collaborator; the scoring function `sim` is
the external embedding similarity.  The store re-ranks its own entries by score
and returns the first `k` — every result is one of the stored entries of this
collection. -/
def query (sim : Text → StoredChunk → Nat) (idx : VectorIndex) (q : Text)
    (k : Nat) : List StoredChunk :=
  ((idx.entries.mergeSort fun a b => sim q b ≤ sim q a).take k)

/-- `max_workers=4` of the shared `ThreadPoolExecutor`. -/
def EXECUTOR_max_workers : Nat := 4

/-- The crawl-depth slider of the Gradio UI: `value=2, minimum=1, maximum=3`. -/
structure Slider where
  value : Nat
  minimum : Nat
  maximum : Nat
deriving DecidableEq

/-- `gr.Slider(label="Crawl depth", value=2, minimum=1, maximum=3, step=1)`. -/
def depth_slider : Slider := { value := 2, minimum := 1, maximum := 3 }

/-- The per-browser-session Gradio state dict: the keys `id`, `qa_chain` and
`history`, each possibly absent. -/
structure SessionState where
  id : Option String
  qa_chain : Option QAChain
  history : Option (List (String × String))
deriving DecidableEq

/-- `url if url.startswith(...) else "https://" + url`. -/
def normalize_url (url : String) : String :=
  if py_startswith url "http://" || py_startswith url "https://" then url
  else "https://" ++ url

/-- `ingest_fn(state, url, depth)`: validate the URL, ensure a session id
(`state.setdefault("id", uuid4())`, the fresh uuid passed as an oracle), crawl,
and on success attach a freshly built chain and reset the history.  Returns the
new state and the status string. -/
def ingest_fn (loader : LoaderCfg → Except PyExn (List Document))
    (fresh_uuid : String) (state : SessionState) (url0 : String)
    (depth : Nat) : SessionState × String :=
  let url := py_strip url0
  if url = "" then (state, "⚠️ Please enter a website URL.")
  else
    let url := normalize_url url
    let sid := state.id.getD fresh_uuid
    let state := { state with id := some sid }
    match crawl_website loader url depth with
    | .error e => (state, "⚠️ Crawl failed: " ++ e.ty ++ ": " ++ e.msg)
    | .ok docs =>
      if docs.isEmpty then (state, "⚠️ Could not retrieve any pages.")
      else
        let vstore := build_vectorstore docs sid
        ({ state with qa_chain := some (make_qa_chain vstore), history := some [] },
         "✅ Indexed " ++ toString docs.length ++ " page(s) from " ++ url ++ ". Ask away!")

/-- The provisional answer text of a pending turn. -/
def PENDING : String := "⏳ …thinking…"

/-- The guidance resolved when no index is attached yet. -/
def NO_INDEX_MSG : String := "⚠️ Crawl a website first."

/-- `hist.append((user_msg, "⏳ …thinking…"))`. -/
def append_pending (msg : String) (hist : List (String × String)) :
    List (String × String) :=
  hist ++ [(msg, PENDING)]

/-- `hist[-1] = (user_msg, answer)`: replace the LAST entry of the history,
whichever turn that currently is. -/
def resolve_last (msg answer : String) (hist : List (String × String)) :
    List (String × String) :=
  hist.dropLast ++ [(msg, answer)]

/-- Store a history value back into the session dict.  `chat_fn` mutates the
list object obtained from `state.get("history", [])` in place, so the write is
visible in the dict only when the `history` key was already present. -/
def setHist (s : SessionState) (h : List (String × String)) : SessionState :=
  match s.history with
  | none => s
  | some _ => { s with history := some h }

/-- The answer text computed around the `qa_chain` invocation held in the
state: the result on success; the warning sign followed by the exception class
name and message when the collaborator raises. -/
def answer_of (invoke : QAChain → String → Except PyExn String)
    (qc : QAChain) (msg : String) : String :=
  match invoke qc msg with
  | .ok r => r
  | .error e => "⚠️ " ++ e.ty ++ ": " ++ e.msg

/-- One run of the async generator `chat_fn`: the sequence of
`yield state, hist` pairs it produces, and the invocations it submits to the
executor (the qa chain and query of each `qa_chain.invoke` call). -/
structure ChatRun where
  yields : List (SessionState × List (String × String))
  calls : List (QAChain × String)
deriving DecidableEq

/-- `chat_fn(state, user_msg)`: empty message → echo; no chain → resolve the
turn to the guidance without scheduling any generation; otherwise yield the
pending turn, invoke the chain on the executor (oracle `invoke`), and resolve
the last history entry with the answer or the formatted exception. -/
def chat_fn (invoke : QAChain → String → Except PyExn String)
    (state : SessionState) (user_msg : String) : ChatRun :=
  let msg := py_strip user_msg
  let hist := state.history.getD []
  if msg = "" then { yields := [(state, hist)], calls := [] }
  else
    match state.qa_chain with
    | none =>
      let h1 := hist ++ [(msg, NO_INDEX_MSG)]
      { yields := [(setHist state h1, h1)], calls := [] }
    | some qc =>
      let h1 := append_pending msg hist
      let s1 := setHist state h1
      let ans := answer_of invoke qc msg
      let h2 := resolve_last msg ans h1
      let s2 := setHist s1 h2
      { yields := [(s1, h1), (s2, h2)], calls := [(qc, msg)] }

/-- `clear_chat(state)`. -/
def clear_chat (s : SessionState) : SessionState × List (String × String) :=
  ({ s with history := some [] }, [])

/-- Phase 1 of a question on a session: append the pending turn to the
current history (the part of `chat_fn` up to and including the first yield). -/
def ask_phase1 (msg : String) (s : SessionState) : SessionState :=
  setHist s (append_pending msg (s.history.getD []))

/-- Phase 2 of a question on a session: compute the answer via the session's
current chain and overwrite the LAST entry of the current history (the part of
`chat_fn` after its `await`). -/
def ask_phase2 (invoke : QAChain → String → Except PyExn String)
    (msg : String) (s : SessionState) : SessionState :=
  match s.qa_chain with
  | none => s
  | some qc => setHist s (resolve_last msg (answer_of invoke qc msg) (s.history.getD []))

/-- Interleaved execution of two coroutines over a pair of session states:
the schedule says whose next step runs; each coroutine's remaining steps act
only on its own component. -/
def runSched : List Bool → List (SessionState → SessionState) →
    List (SessionState → SessionState) →
    SessionState × SessionState → SessionState × SessionState
  | [], _, _, g => g
  | true :: il, [], bs, g => runSched il [] bs g
  | true :: il, a :: ra, bs, g => runSched il ra bs (a g.1, g.2)
  | false :: il, ra, [], g => runSched il ra [] g
  | false :: il, ra, b :: rb, g => runSched il ra rb (g.1, b g.2)

/-- The template string of `SAFE_PROMPT`, exactly as written in the source. -/
def SAFE_PROMPT_template : String :=
  "Use ONLY the context below to answer the question. If the answer is not in the context, reply exactly: \x27I don\x27t know based on the provided website content.\x27\n\nContext:\n{context}\n\nQuestion: {question}\nAnswer:"

/-- The exact fixed fallback sentence the prompt demands when the context does
not contain the answer. -/
def FALLBACK : String := "I don\x27t know based on the provided website content."

/-- The instruction to answer using only the supplied context. -/
def ONLY_CONTEXT_INSTRUCTION : String :=
  "Use ONLY the context below to answer the question."

/-- What precedes the substituted context in the formatted prompt. -/
def SAFE_PROMPT_pre : String :=
  "Use ONLY the context below to answer the question. If the answer is not in the context, reply exactly: \x27I don\x27t know based on the provided website content.\x27\n\nContext:\n"

/-- What separates the substituted context from the substituted question. -/
def SAFE_PROMPT_mid : String := "\n\nQuestion: "

/-- What follows the substituted question. -/
def SAFE_PROMPT_post : String := "\nAnswer:"

/-- `SAFE_PROMPT.format(context=c, question=q)`: substitute the two input
variables into the template. -/
def format_prompt (c q : Text) : Text :=
  SAFE_PROMPT_pre.data ++ c ++ SAFE_PROMPT_mid.data ++ q ++ SAFE_PROMPT_post.data

/-- `sub` occurs contiguously inside `l`. -/
def containsSub (l sub : Text) : Prop := ∃ pre post, l = pre ++ sub ++ post

/-- The "stuff" chain's context: the retrieved chunks' texts joined by blank
lines. -/
def stuff_context (cs : List StoredChunk) : Text :=
  List.intercalate "\n\n".data (cs.map fun e => e.chunk.text)

/-- Modelled from the spec: the `RetrievalQA` "stuff" pipeline (library code
outside the repository): retrieve `k` chunks from the chain's store, format
`SAFE_PROMPT` with the stuffed context and the question, hand the prompt to
the generation collaborator and return its reply as `res["result"]`. -/
def qa_invoke (generate : Text → Text) (sim : Text → StoredChunk → Nat)
    (qc : QAChain) (question : Text) : Text :=
  generate (format_prompt (stuff_context (query sim qc.vstore question qc.k)) question)

lemma session_collection_inj {s1 s2 : String}
    (h : "session-" ++ s1 = "session-" ++ s2) : s1 = s2 := by
  have hd := congrArg String.data h
  simp only [String.data_append] at hd
  exact String.ext (List.append_inj_right hd rfl)

lemma build_vectorstore_collection (docs : List Document) (sid : String) :
    ∀ e ∈ (build_vectorstore docs sid).entries, e.collection = "session-" ++ sid := by
  intro e he
  simp only [build_vectorstore, List.mem_map] at he
  obtain ⟨c, _, rfl⟩ := he
  rfl

lemma query_mem (sim : Text → StoredChunk → Nat) (idx : VectorIndex) (q : Text)
    (k : Nat) : ∀ e ∈ query sim idx q k, e ∈ idx.entries := by
  intro e he
  exact List.mem_mergeSort.mp ((List.take_sublist _ _).subset he)

lemma resolve_append_pending (msg ans : String) (hist : List (String × String)) :
    resolve_last msg ans (append_pending msg hist) = hist ++ [(msg, ans)] := by
  simp [resolve_last, append_pending]

lemma runSched_two_two (fa1 fa2 fb1 fb2 : SessionState → SessionState)
    (il : List Bool) (h1 : il.length = 4) (h2 : il.count true = 2)
    (g : SessionState × SessionState) :
    runSched il [fa1, fa2] [fb1, fb2] g = (fa2 (fa1 g.1), fb2 (fb1 g.2)) := by
  rcases il with _ | ⟨a, il⟩
  · simp at h1
  rcases il with _ | ⟨b, il⟩
  · simp at h1
  rcases il with _ | ⟨c, il⟩
  · simp at h1
  rcases il with _ | ⟨d, il⟩
  · simp at h1
  rcases il with _ | ⟨e, il⟩
  · cases a <;> cases b <;> cases c <;> cases d <;>
      simp_all [runSched, List.count_cons]
  · simp at h1

lemma crawl_failed_msg (m : String) :
    "⚠️ Crawl failed: RuntimeError: " ++ ("RecursiveUrlLoader failed: " ++ m)
      = "⚠️ Crawl failed: RuntimeError: RecursiveUrlLoader failed: " ++ m := by
  apply String.ext
  have hdata : "⚠️ Crawl failed: RuntimeError: RecursiveUrlLoader failed: ".data
      = "⚠️ Crawl failed: RuntimeError: ".data ++ "RecursiveUrlLoader failed: ".data := by
    decide
  simp [String.data_append, hdata, List.append_assoc]

/-- C9: the core's recognized configuration values: chunkSize 512 and
chunkOverlap 64 on the splitter, retrievalK 4 (similarity-with-diversity,
i.e. MMR), worker-pool size 4, crawl depth default 2 with the UI capping it
at 3, and a request timeout of 10 units handed to each page fetch by the
loader configuration. -/
theorem configuration_constants :
    SPLITTER.chunk_size = 512 ∧ SPLITTER.chunk_overlap = 64 ∧
    (∀ v : VectorIndex, (make_qa_chain v).k = 4 ∧ (make_qa_chain v).search_type = "mmr") ∧
    EXECUTOR_max_workers = 4 ∧
    depth_slider.value = 2 ∧ depth_slider.minimum = 1 ∧ depth_slider.maximum = 3 ∧
    (∀ u d, (crawl_loader_cfg u d).timeout = 10 ∧ (crawl_loader_cfg u d).max_depth = d) ∧
    (∀ (loader : LoaderCfg → Except PyExn (List Document)) (u : String),
       crawl_website loader u = crawl_website loader u 2) :=
  ⟨rfl, rfl, fun _ => ⟨rfl, rfl⟩, rfl, rfl, rfl, rfl, fun _ _ => ⟨rfl, rfl⟩,
   fun _ _ => rfl⟩

/-- C3: on a session with no attached index, asking a (nonempty) question
resolves the turn to the "crawl a website first" guidance and submits no work
at all to the generation collaborator (`calls = []`). -/
theorem ask_without_index_guidance
    (invoke : QAChain → String → Except PyExn String) (state : SessionState)
    (user_msg : String) (hqc : state.qa_chain = none)
    (hmsg : py_strip user_msg ≠ "") :
    (chat_fn invoke state user_msg).calls = [] ∧
    (chat_fn invoke state user_msg).yields =
      [(setHist state (state.history.getD [] ++ [(py_strip user_msg, NO_INDEX_MSG)]),
        state.history.getD [] ++ [(py_strip user_msg, NO_INDEX_MSG)])] := by
  simp [chat_fn, hqc, hmsg]

theorem ask_without_index_guidance_witness :
    (chat_fn (fun _ _ => .ok "x") ⟨none, none, none⟩ "hello").calls = [] ∧
    (chat_fn (fun _ _ => .ok "x") ⟨none, none, none⟩ "hello").yields =
      [(setHist ⟨none, none, none⟩
          ((⟨none, none, none⟩ : SessionState).history.getD []
            ++ [(py_strip "hello", NO_INDEX_MSG)]),
        (⟨none, none, none⟩ : SessionState).history.getD []
          ++ [(py_strip "hello", NO_INDEX_MSG)])] :=
  ask_without_index_guidance (fun _ _ => .ok "x") ⟨none, none, none⟩ "hello" rfl
    (by decide)

/-- C10: a successful ingest resets the session's history to empty, discarding
all previously resolved turns; a failed ingest (crawl error or empty crawl)
leaves the history untouched. -/
theorem ingest_resets_history
    (loader : LoaderCfg → Except PyExn (List Document)) (fresh : String)
    (state : SessionState) (url0 : String) (depth : Nat)
    (hurl : py_strip url0 ≠ "") :
    (∀ docs, crawl_website loader (normalize_url (py_strip url0)) depth = .ok docs →
       docs ≠ [] → (ingest_fn loader fresh state url0 depth).1.history = some []) ∧
    (∀ e, crawl_website loader (normalize_url (py_strip url0)) depth = .error e →
       (ingest_fn loader fresh state url0 depth).1.history = state.history) ∧
    (crawl_website loader (normalize_url (py_strip url0)) depth = .ok [] →
       (ingest_fn loader fresh state url0 depth).1.history = state.history) := by
  refine ⟨?_, ?_, ?_⟩
  · intro docs hc hne
    rcases docs with _ | ⟨d, ds⟩
    · exact absurd rfl hne
    · simp [ingest_fn, hurl, hc]
  · intro e hc
    simp [ingest_fn, hurl, hc]
  · intro hc
    simp [ingest_fn, hurl, hc]

theorem ingest_resets_history_witness :
    (ingest_fn (fun _ => .ok [{ text := ['x'], source := none }]) "u1"
        ⟨some "u1", none, some [("q", "a")]⟩ "example.com" 2).1.history = some [] :=
  (ingest_resets_history (fun _ => .ok [{ text := ['x'], source := none }]) "u1"
      ⟨some "u1", none, some [("q", "a")]⟩ "example.com" 2 (by decide)).1
    [{ text := ['x'], source := some ((none : Option String).getD
        (normalize_url (py_strip "example.com"))) }] rfl (by simp)

/-- C4: ingest failure atomicity and classification.  If the loader cannot
retrieve the root page, `ingest_fn` reports the crawl failure (the wrapped
`RuntimeError` of `crawl_website`); if the crawl succeeds with zero documents
it reports the distinct empty-result message; in both cases the session's
chain and history are unchanged (only the lazily-created session id is
ensured), and in particular a fresh session's index remains absent. -/
theorem ingest_failure_atomic
    (loader : LoaderCfg → Except PyExn (List Document)) (fresh : String)
    (state : SessionState) (url0 : String) (depth : Nat)
    (hurl : py_strip url0 ≠ "") :
    (∀ e, loader (crawl_loader_cfg (normalize_url (py_strip url0)) depth) = .error e →
       ingest_fn loader fresh state url0 depth =
         ({ state with id := some (state.id.getD fresh) },
          "⚠️ Crawl failed: RuntimeError: RecursiveUrlLoader failed: " ++ e.msg) ∧
       (ingest_fn loader fresh state url0 depth).1.qa_chain = state.qa_chain ∧
       (ingest_fn loader fresh state url0 depth).1.history = state.history) ∧
    (loader (crawl_loader_cfg (normalize_url (py_strip url0)) depth) = .ok [] →
       ingest_fn loader fresh state url0 depth =
         ({ state with id := some (state.id.getD fresh) },
          "⚠️ Could not retrieve any pages.") ∧
       (ingest_fn loader fresh state url0 depth).1.qa_chain = state.qa_chain ∧
       (ingest_fn loader fresh state url0 depth).1.history = state.history) ∧
    (state.qa_chain = none →
       ∀ e, loader (crawl_loader_cfg (normalize_url (py_strip url0)) depth) = .error e →
         (ingest_fn loader fresh state url0 depth).1.qa_chain = none) := by
  refine ⟨?_, ?_, ?_⟩
  · intro e hl
    have hc : crawl_website loader (normalize_url (py_strip url0)) depth =
        .error { ty := "RuntimeError", msg := "RecursiveUrlLoader failed: " ++ e.msg } := by
      simp [crawl_website, hl]
    refine ⟨?_, ?_, ?_⟩ <;> simp [ingest_fn, hurl, hc, crawl_failed_msg]
  · intro hl
    have hc : crawl_website loader (normalize_url (py_strip url0)) depth = .ok [] := by
      simp [crawl_website, hl]
    refine ⟨?_, ?_, ?_⟩ <;> simp [ingest_fn, hurl, hc]
  · intro hqc e hl
    have hc : crawl_website loader (normalize_url (py_strip url0)) depth =
        .error { ty := "RuntimeError", msg := "RecursiveUrlLoader failed: " ++ e.msg } := by
      simp [crawl_website, hl]
    simp [ingest_fn, hurl, hc, hqc]

theorem ingest_failure_atomic_witness :
    ingest_fn (fun _ => .error ⟨"ConnectionError", "boom"⟩) "u1"
        ⟨none, none, none⟩ "example.com" 2 =
      (⟨some "u1", none, none⟩,
       "⚠️ Crawl failed: RuntimeError: RecursiveUrlLoader failed: boom") ∧
    (ingest_fn (fun _ => .error ⟨"ConnectionError", "boom"⟩) "u1"
        ⟨none, none, none⟩ "example.com" 2).1.qa_chain = none := by
  have h := ingest_failure_atomic (fun _ => .error ⟨"ConnectionError", "boom"⟩)
    "u1" ⟨none, none, none⟩ "example.com" 2 (by decide)
  exact ⟨(h.1 ⟨"ConnectionError", "boom"⟩ rfl).1, h.2.2 rfl ⟨"ConnectionError", "boom"⟩ rfl⟩

/-- C6: index replacement.  The session holds at most one chain (an `Option`
field); after a successful ingest the attached chain is exactly the one built
over this ingest's documents — independent of whatever chain or history the
session held before, so the prior index is discarded wholesale; every stored
entry belongs to this session's collection and every query result is drawn
from the freshly stored entries. -/
theorem ingest_replaces_index
    (loader : LoaderCfg → Except PyExn (List Document)) (fresh : String)
    (state : SessionState) (url0 : String) (depth : Nat) (docs : List Document)
    (hurl : py_strip url0 ≠ "")
    (hcrawl : crawl_website loader (normalize_url (py_strip url0)) depth = .ok docs)
    (hne : docs ≠ []) :
    (ingest_fn loader fresh state url0 depth).1.qa_chain =
      some (make_qa_chain (build_vectorstore docs (state.id.getD fresh))) ∧
    (∀ e ∈ (build_vectorstore docs (state.id.getD fresh)).entries,
       e.collection = "session-" ++ state.id.getD fresh) ∧
    (∀ sim qt k, ∀ e ∈ query sim (build_vectorstore docs (state.id.getD fresh)) qt k,
       e ∈ (build_vectorstore docs (state.id.getD fresh)).entries) := by
  refine ⟨?_, build_vectorstore_collection docs _, fun sim qt k => query_mem sim _ qt k⟩
  rcases docs with _ | ⟨d, ds⟩
  · exact absurd rfl hne
  · simp [ingest_fn, hurl, hcrawl]

theorem ingest_replaces_index_witness :
    (ingest_fn (fun _ => .ok [{ text := ['x'], source := some "s" }]) "u1"
        ⟨some "sid", some (make_qa_chain (build_vectorstore [] "old")),
         some [("q", "a")]⟩ "example.com" 2).1.qa_chain =
      some (make_qa_chain (build_vectorstore [{ text := ['x'], source := some "s" }]
        ((some "sid").getD "u1"))) ∧
    (∀ e ∈ (build_vectorstore [{ text := ['x'], source := some "s" }]
        ((some "sid").getD "u1")).entries,
       e.collection = "session-" ++ (some "sid").getD "u1") ∧
    (∀ sim qt k, ∀ e ∈ query sim (build_vectorstore
        [{ text := ['x'], source := some "s" }] ((some "sid").getD "u1")) qt k,
       e ∈ (build_vectorstore [{ text := ['x'], source := some "s" }]
        ((some "sid").getD "u1")).entries) :=
  ingest_replaces_index (fun _ => .ok [{ text := ['x'], source := some "s" }]) "u1"
    ⟨some "sid", some (make_qa_chain (build_vectorstore [] "old")), some [("q", "a")]⟩
    "example.com" 2 [{ text := ['x'], source := some "s" }] (by decide) rfl (by simp)

/-- C8: when the generation collaborator fails during a question (any raised
exception, timeouts and malformed responses included), the exception is caught
and its category and message become the resolved
turn's text instead of propagating past `chat_fn`; the conversation remains
usable — a later question on the resulting session appends and resolves its
own turn while the error turn stays in the history. -/
theorem collaborator_failure_surfaced
    (invoke invoke2 : QAChain → String → Except PyExn String) (qc : QAChain)
    (sid : Option String) (hs : List (String × String))
    (user_msg msg2 r2 : String) (e : PyExn)
    (hmsg : py_strip user_msg ≠ "") (hmsg2 : py_strip msg2 ≠ "")
    (hfail : invoke qc (py_strip user_msg) = .error e)
    (hok : invoke2 qc (py_strip msg2) = .ok r2) :
    (chat_fn invoke ⟨sid, some qc, some hs⟩ user_msg).yields =
      [(⟨sid, some qc, some (hs ++ [(py_strip user_msg, PENDING)])⟩,
        hs ++ [(py_strip user_msg, PENDING)]),
       (⟨sid, some qc, some (hs ++ [(py_strip user_msg, "⚠️ " ++ e.ty ++ ": " ++ e.msg)])⟩,
        hs ++ [(py_strip user_msg, "⚠️ " ++ e.ty ++ ": " ++ e.msg)])] ∧
    (chat_fn invoke2 ⟨sid, some qc,
        some (hs ++ [(py_strip user_msg, "⚠️ " ++ e.ty ++ ": " ++ e.msg)])⟩ msg2).yields.map
        Prod.snd =
      [hs ++ [(py_strip user_msg, "⚠️ " ++ e.ty ++ ": " ++ e.msg), (py_strip msg2, PENDING)],
       hs ++ [(py_strip user_msg, "⚠️ " ++ e.ty ++ ": " ++ e.msg), (py_strip msg2, r2)]] := by
  constructor
  · simp [chat_fn, hmsg, answer_of, hfail, append_pending, setHist, resolve_last,
      List.dropLast_concat]
  · simp [chat_fn, hmsg2, answer_of, hok, append_pending, setHist, resolve_last,
      List.dropLast_concat, List.append_assoc]

theorem collaborator_failure_surfaced_witness :
    (chat_fn (fun _ _ => .error ⟨"Timeout", "llm down"⟩)
        ⟨some "s", some (make_qa_chain (build_vectorstore [] "s")), some []⟩ "why").yields =
      [(⟨some "s", some (make_qa_chain (build_vectorstore [] "s")),
          some ([] ++ [(py_strip "why", PENDING)])⟩,
        [] ++ [(py_strip "why", PENDING)]),
       (⟨some "s", some (make_qa_chain (build_vectorstore [] "s")),
          some ([] ++ [(py_strip "why", "⚠️ " ++ "Timeout" ++ ": " ++ "llm down")])⟩,
        [] ++ [(py_strip "why", "⚠️ " ++ "Timeout" ++ ": " ++ "llm down")])] ∧
    (chat_fn (fun _ _ => .ok "fine")
        ⟨some "s", some (make_qa_chain (build_vectorstore [] "s")),
         some ([] ++ [(py_strip "why", "⚠️ " ++ "Timeout" ++ ": " ++ "llm down")])⟩
        "again").yields.map Prod.snd =
      [[] ++ [(py_strip "why", "⚠️ " ++ "Timeout" ++ ": " ++ "llm down"),
          (py_strip "again", PENDING)],
       [] ++ [(py_strip "why", "⚠️ " ++ "Timeout" ++ ": " ++ "llm down"),
          (py_strip "again", "fine")]] :=
  collaborator_failure_surfaced (fun _ _ => .error ⟨"Timeout", "llm down"⟩)
    (fun _ _ => .ok "fine") (make_qa_chain (build_vectorstore [] "s")) (some "s") []
    "why" "again" "fine" ⟨"Timeout", "llm down"⟩ (by decide) (by decide) rfl rfl

/-- C2 (amended): for a question asked on a session that has an index, the
pending turn is yielded strictly before the resolved turn, the turn transitions
pending→resolved exactly once (exactly two yields, one executor call), and —
provided questions on the same session are not interleaved — a following
question appends its own turn with no history entry lost or duplicated.  The
unamended claim's same-session concurrency part is refuted separately: because
resolution writes to the LAST history entry, interleaving two questions on one
session loses a turn. -/
theorem turn_lifecycle_sequential
    (invoke invoke2 : QAChain → String → Except PyExn String) (qc : QAChain)
    (sid : Option String) (hs : List (String × String)) (user_msg msg2 : String)
    (hmsg : py_strip user_msg ≠ "") (hmsg2 : py_strip msg2 ≠ "") :
    (chat_fn invoke ⟨sid, some qc, some hs⟩ user_msg).yields =
      [(⟨sid, some qc, some (hs ++ [(py_strip user_msg, PENDING)])⟩,
        hs ++ [(py_strip user_msg, PENDING)]),
       (⟨sid, some qc,
          some (hs ++ [(py_strip user_msg, answer_of invoke qc (py_strip user_msg))])⟩,
        hs ++ [(py_strip user_msg, answer_of invoke qc (py_strip user_msg))])] ∧
    (chat_fn invoke ⟨sid, some qc, some hs⟩ user_msg).calls =
      [(qc, py_strip user_msg)] ∧
    (chat_fn invoke2 ⟨sid, some qc,
        some (hs ++ [(py_strip user_msg, answer_of invoke qc (py_strip user_msg))])⟩
        msg2).yields.map Prod.snd =
      [hs ++ [(py_strip user_msg, answer_of invoke qc (py_strip user_msg)),
          (py_strip msg2, PENDING)],
       hs ++ [(py_strip user_msg, answer_of invoke qc (py_strip user_msg)),
          (py_strip msg2, answer_of invoke2 qc (py_strip msg2))]] := by
  refine ⟨?_, ?_, ?_⟩
  · simp [chat_fn, hmsg, append_pending, setHist, resolve_last, List.dropLast_concat]
  · simp [chat_fn, hmsg]
  · simp [chat_fn, hmsg2, append_pending, setHist, resolve_last,
      List.dropLast_concat, List.append_assoc]

theorem turn_lifecycle_sequential_witness :
    (chat_fn (fun _ _ => .ok "a1")
        ⟨some "s", some (make_qa_chain (build_vectorstore [] "s")), some []⟩ "q1").yields =
      [(⟨some "s", some (make_qa_chain (build_vectorstore [] "s")),
          some ([] ++ [(py_strip "q1", PENDING)])⟩,
        [] ++ [(py_strip "q1", PENDING)]),
       (⟨some "s", some (make_qa_chain (build_vectorstore [] "s")),
          some ([] ++ [(py_strip "q1",
            answer_of (fun _ _ => .ok "a1") (make_qa_chain (build_vectorstore [] "s"))
              (py_strip "q1"))])⟩,
        [] ++ [(py_strip "q1",
          answer_of (fun _ _ => .ok "a1") (make_qa_chain (build_vectorstore [] "s"))
            (py_strip "q1"))])] ∧
    (chat_fn (fun _ _ => .ok "a1")
        ⟨some "s", some (make_qa_chain (build_vectorstore [] "s")), some []⟩ "q1").calls =
      [(make_qa_chain (build_vectorstore [] "s"), py_strip "q1")] ∧
    (chat_fn (fun _ _ => .ok "a2")
        ⟨some "s", some (make_qa_chain (build_vectorstore [] "s")),
         some ([] ++ [(py_strip "q1",
           answer_of (fun _ _ => .ok "a1") (make_qa_chain (build_vectorstore [] "s"))
             (py_strip "q1"))])⟩ "q2").yields.map Prod.snd =
      [[] ++ [(py_strip "q1",
          answer_of (fun _ _ => .ok "a1") (make_qa_chain (build_vectorstore [] "s"))
            (py_strip "q1")), (py_strip "q2", PENDING)],
       [] ++ [(py_strip "q1",
          answer_of (fun _ _ => .ok "a1") (make_qa_chain (build_vectorstore [] "s"))
            (py_strip "q1")),
         (py_strip "q2",
          answer_of (fun _ _ => .ok "a2") (make_qa_chain (build_vectorstore [] "s"))
            (py_strip "q2"))]] :=
  turn_lifecycle_sequential (fun _ _ => .ok "a1") (fun _ _ => .ok "a2")
    (make_qa_chain (build_vectorstore [] "s")) (some "s") [] "q1" "q2"
    (by decide) (by decide)

/-- C2 (counterexample): interleaving two questions on the SAME session —
reachable because `chat_fn` suspends between its pending yield and its
resolution — loses a turn: after the schedule A-pending, B-pending, A-resolve,
B-resolve, question A's history entry is still the pending marker forever and
its answer `ans-qA` appears nowhere, contradicting "each turn transitions
pending→resolved exactly once with no history entry lost even when two
questions are submitted concurrently on the same session". -/
theorem same_session_interleaved_ask_loses_turn :
    (ask_phase2 (fun _ m => .ok ("ans-" ++ m)) "qB"
      (ask_phase2 (fun _ m => .ok ("ans-" ++ m)) "qA"
        (ask_phase1 "qB"
          (ask_phase1 "qA"
            ⟨some "s", some (make_qa_chain (build_vectorstore [] "s")),
             some []⟩)))).history =
      some [("qA", PENDING), ("qB", "ans-qB")] ∧
    ("qA", "ans-qA") ∉
      (ask_phase2 (fun _ m => .ok ("ans-" ++ m)) "qB"
        (ask_phase2 (fun _ m => .ok ("ans-" ++ m)) "qA"
          (ask_phase1 "qB"
            (ask_phase1 "qA"
              ⟨some "s", some (make_qa_chain (build_vectorstore [] "s")),
               some []⟩)))).history.getD [] := by
  decide

/-- C1: session isolation and parallel asks.  (1) Chunks are stored in the
per-session collection `session-{sid}`; a query against one session's store
returns only entries of that collection, so for two sessions with distinct ids
no returned entry belongs to the other session's store.  (2) Two `ask` calls
against two DIFFERENT sessions: under every interleaving of their
pending/resolve phases (any schedule of the 2+2 steps), both resolve to
exactly the outcome of their isolated sequential runs — neither observes the
other session's chunks or history. -/
theorem session_isolation_and_parallel_ask
    (sid1 sid2 : String) (hsid : sid1 ≠ sid2)
    (docs1 docs2 : List Document) (sim : Text → StoredChunk → Nat)
    (qt : Text) (k : Nat)
    (invoke : QAChain → String → Except PyExn String) (mA mB : String)
    (s1 s2 : SessionState) :
    (∀ e ∈ query sim (build_vectorstore docs1 sid1) qt k,
       e ∉ (build_vectorstore docs2 sid2).entries) ∧
    (∀ il : List Bool, il.length = 4 → il.count true = 2 →
       runSched il [ask_phase1 mA, ask_phase2 invoke mA]
         [ask_phase1 mB, ask_phase2 invoke mB] (s1, s2) =
         (ask_phase2 invoke mA (ask_phase1 mA s1),
          ask_phase2 invoke mB (ask_phase1 mB s2))) := by
  constructor
  · intro e he hmem
    have h1 := build_vectorstore_collection docs1 sid1 e (query_mem sim _ qt k e he)
    have h2 := build_vectorstore_collection docs2 sid2 e hmem
    rw [h1] at h2
    exact hsid (session_collection_inj h2)
  · intro il h1 h2
    exact runSched_two_two _ _ _ _ il h1 h2 (s1, s2)

theorem session_isolation_and_parallel_ask_witness :
    (∀ e ∈ query (fun _ _ => 0) (build_vectorstore [{ text := ['x'], source := some "u" }] "a")
        ['h'] 4,
       e ∉ (build_vectorstore [{ text := ['x'], source := some "u" }] "b").entries) ∧
    (∀ il : List Bool, il.length = 4 → il.count true = 2 →
       runSched il [ask_phase1 "hi", ask_phase2 (fun _ _ => .ok "ok") "hi"]
         [ask_phase1 "yo", ask_phase2 (fun _ _ => .ok "ok") "yo"]
         (⟨some "a", none, some []⟩, ⟨some "b", none, some []⟩) =
         (ask_phase2 (fun _ _ => .ok "ok") "hi" (ask_phase1 "hi" ⟨some "a", none, some []⟩),
          ask_phase2 (fun _ _ => .ok "ok") "yo"
            (ask_phase1 "yo" ⟨some "b", none, some []⟩))) :=
  session_isolation_and_parallel_ask "a" "b" (by decide)
    [{ text := ['x'], source := some "u" }] [{ text := ['x'], source := some "u" }]
    (fun _ _ => 0) ['h'] 4 (fun _ _ => .ok "ok") "hi" "yo"
    ⟨some "a", none, some []⟩ ⟨some "b", none, some []⟩

/-- C5: chunking (splitter modelled from the spec, see `splitText`).  For
`0 ≤ overlap < chunkSize`: window `i` is exactly the `chunkSize`-long slice of
the document's text starting at `i · (chunkSize − overlap)` (so windows advance
by `chunkSize − overlap`); every window is at most `chunkSize` long and every
non-final window exactly `chunkSize` (only the final one may be shorter);
consecutive chunks share exactly `overlap` units of text; and concatenating the
chunks' non-overlapping portions reconstructs the document's text exactly.
`split_documents` applies this per document, preserving provenance. -/
theorem chunking_spec (chunkSize overlap : Nat) (hov : overlap < chunkSize)
    (d : Document) :
    (∀ i, i < (splitText chunkSize overlap d.text).length →
       (splitText chunkSize overlap d.text)[i]? =
         some ((d.text.drop (i * (chunkSize - overlap))).take chunkSize)) ∧
    (∀ c ∈ splitText chunkSize overlap d.text, c.length ≤ chunkSize) ∧
    (∀ c ∈ (splitText chunkSize overlap d.text).dropLast, c.length = chunkSize) ∧
    (splitText chunkSize overlap d.text).Chain'
      (fun a b => a.drop (chunkSize - overlap) = b.take overlap ∧
        (b.take overlap).length = overlap) ∧
    reconstruct overlap (splitText chunkSize overlap d.text) = d.text ∧
    split_documents [d] =
      (splitText SPLITTER.chunk_size SPLITTER.chunk_overlap d.text).map
        (fun t => { text := t, source := d.source }) := by
  refine ⟨splitText_getElem? chunkSize overlap hov d.text.length d.text (Nat.le_refl _),
    ?_,
    splitText_dropLast_length chunkSize overlap hov d.text.length d.text (Nat.le_refl _),
    splitText_chain chunkSize overlap hov d.text.length d.text (Nat.le_refl _),
    reconstruct_splitText chunkSize overlap hov d.text.length d.text (Nat.le_refl _),
    by simp [split_documents]⟩
  rcases Nat.eq_zero_or_pos d.text.length with h0 | h0
  · exact splitText_mem_length_le chunkSize overlap hov d.text.length d.text
      (Nat.le_refl _) (Or.inl (by omega))
  · exact splitText_mem_length_le chunkSize overlap hov d.text.length d.text
      (Nat.le_refl _) (Or.inr h0)

theorem chunking_spec_witness :
    (∀ i, i < (splitText 3 1 "abcdef".data).length →
       (splitText 3 1 "abcdef".data)[i]? =
         some (("abcdef".data.drop (i * (3 - 1))).take 3)) ∧
    (∀ c ∈ splitText 3 1 "abcdef".data, c.length ≤ 3) ∧
    (∀ c ∈ (splitText 3 1 "abcdef".data).dropLast, c.length = 3) ∧
    (splitText 3 1 "abcdef".data).Chain'
      (fun a b => a.drop (3 - 1) = b.take 1 ∧ (b.take 1).length = 1) ∧
    reconstruct 1 (splitText 3 1 "abcdef".data) = "abcdef".data ∧
    split_documents [{ text := "abcdef".data, source := none }] =
      (splitText SPLITTER.chunk_size SPLITTER.chunk_overlap "abcdef".data).map
        (fun t => { text := t, source := none }) :=
  chunking_spec 3 1 (by decide) { text := "abcdef".data, source := none }

/-- C7: the formatted prompt contains the supplied context and the literal
question, contains the instruction to use only the supplied context, and
contains the exact fixed fallback sentence to reply with when the context
lacks the answer; the displayed pieces reassemble the source's `SAFE_PROMPT`
template literally; and with a stub generation collaborator that follows the
instruction, the answer pipeline on a retrieved context lacking the answer
returns exactly the fallback sentence. -/
theorem safe_prompt_grounding
    (c q : Text) (generate : Text → Text) (hasAnswer : Text → Text → Bool)
    (sim : Text → StoredChunk → Nat) (idx : VectorIndex) (qt : Text)
    (hstub : ∀ cx qx, hasAnswer cx qx = false →
       generate (format_prompt cx qx) = FALLBACK.data)
    (hlacks : hasAnswer (stuff_context (query sim idx qt 4)) qt = false) :
    containsSub (format_prompt c q) c ∧
    containsSub (format_prompt c q) q ∧
    containsSub (format_prompt c q) ONLY_CONTEXT_INSTRUCTION.data ∧
    containsSub (format_prompt c q) FALLBACK.data ∧
    SAFE_PROMPT_pre.data ++ "{context}".data ++ SAFE_PROMPT_mid.data
      ++ "{question}".data ++ SAFE_PROMPT_post.data = SAFE_PROMPT_template.data ∧
    qa_invoke generate sim (make_qa_chain idx) qt = FALLBACK.data := by
  refine ⟨?_, ?_, ?_, ?_, by decide, ?_⟩
  · exact ⟨SAFE_PROMPT_pre.data, SAFE_PROMPT_mid.data ++ q ++ SAFE_PROMPT_post.data,
      by simp [format_prompt, List.append_assoc]⟩
  · exact ⟨SAFE_PROMPT_pre.data ++ c ++ SAFE_PROMPT_mid.data, SAFE_PROMPT_post.data,
      by simp [format_prompt, List.append_assoc]⟩
  · have hpre : SAFE_PROMPT_pre.data = ONLY_CONTEXT_INSTRUCTION.data ++
        (" If the answer is not in the context, reply exactly: \x27I don\x27t know based on the provided website content.\x27\n\nContext:\n").data := by
      decide
    exact ⟨[],
      (" If the answer is not in the context, reply exactly: \x27I don\x27t know based on the provided website content.\x27\n\nContext:\n").data
        ++ c ++ SAFE_PROMPT_mid.data ++ q ++ SAFE_PROMPT_post.data,
      by simp [format_prompt, hpre, List.append_assoc]⟩
  · have hpre : SAFE_PROMPT_pre.data =
        ("Use ONLY the context below to answer the question. If the answer is not in the context, reply exactly: \x27").data
          ++ FALLBACK.data ++ ("\x27\n\nContext:\n").data := by
      decide
    exact ⟨("Use ONLY the context below to answer the question. If the answer is not in the context, reply exactly: \x27").data,
      ("\x27\n\nContext:\n").data ++ c ++ SAFE_PROMPT_mid.data ++ q ++ SAFE_PROMPT_post.data,
      by simp [format_prompt, hpre, List.append_assoc]⟩
  · exact hstub (stuff_context (query sim idx qt 4)) qt hlacks

theorem safe_prompt_grounding_witness :
    containsSub (format_prompt "ctx".data "why".data) "ctx".data ∧
    containsSub (format_prompt "ctx".data "why".data) "why".data ∧
    containsSub (format_prompt "ctx".data "why".data) ONLY_CONTEXT_INSTRUCTION.data ∧
    containsSub (format_prompt "ctx".data "why".data) FALLBACK.data ∧
    SAFE_PROMPT_pre.data ++ "{context}".data ++ SAFE_PROMPT_mid.data
      ++ "{question}".data ++ SAFE_PROMPT_post.data = SAFE_PROMPT_template.data ∧
    qa_invoke (fun _ => FALLBACK.data) (fun _ _ => 0)
      (make_qa_chain ⟨"session-a", []⟩) "qq".data = FALLBACK.data :=
  safe_prompt_grounding "ctx".data "why".data (fun _ => FALLBACK.data)
    (fun _ _ => false) (fun _ _ => 0) ⟨"session-a", []⟩ "qq".data
    (fun _ _ _ => rfl) rfl

end WebQA
